import Mathlib

/- Shallow embedding of the regloicc pump library
   (src/regloicclib/Communicator.py and src/regloicclib/Pump.py).

   Conventions for the Python fragments modelled here:
   - `bytes` values are lists of naturals (one per byte);
   - `str` values are Lean strings (the protocol is ASCII);
   - Python numbers are an `int` (an integer) or a `float`.  A float is
     modelled as the exact decimal `man / 10 ^ exp`: every IEEE double is a
     dyadic rational and hence decimal-exact, and the floats handled by this
     library print in their shortest decimal form, which this model produces
     directly;
   - code that can raise an exception returns an `Option`, `none` marking the
     exception. -/

/-- A Python `bytes` value, one natural number (0 to 255) per byte. -/
abbrev Bytes := List Nat

/-- ASCII bytes literal: `bstr s` models the Python bytes literal `b"s"`. -/
def bstr (s : String) : Bytes := s.data.map (fun c => c.toNat)

/-- A Python `float`, as the exact decimal `man / 10 ^ exp`. -/
structure Dec where
  man : ℤ
  exp : ℕ
deriving DecidableEq

/-- A Python number: an `int` or a `float`. -/
inductive PyNum where
  | int (z : ℤ)
  | float (d : Dec)
deriving DecidableEq

/-- Numerator and decimal denominator exponent of a Python number. -/
def PyNum.manexp : PyNum → ℤ × ℕ
  | .int z => (z, 0)
  | .float d => (d.man, d.exp)

/-- Python `-x`. -/
def pyNeg : PyNum → PyNum
  | .int z => .int (-z)
  | .float d => .float ⟨-d.man, d.exp⟩

/-- Numeric order on Python numbers (`a < b`), by cross multiplication. -/
def pyLt (a b : PyNum) : Prop :=
  a.manexp.1 * 10 ^ b.manexp.2 < b.manexp.1 * 10 ^ a.manexp.2

instance (a b : PyNum) : Decidable (pyLt a b) := by unfold pyLt; infer_instance

/-- Python multiplication: `int * int` stays `int`, anything involving a
`float` is a `float`. -/
def pyMul (a b : PyNum) : PyNum :=
  match a, b with
  | .int x, .int y => .int (x * y)
  | _, _ => .float ⟨a.manexp.1 * b.manexp.1, a.manexp.2 + b.manexp.2⟩

/-- Python `min(a, b)`: `b` exactly when `b < a`, else the first argument. -/
def pyMin (a b : PyNum) : PyNum :=
  if pyLt b a then b else a

/-- Decimal digit characters of `n`, most significant first, with structural
fuel; fuel `n + 1` always suffices since `n / 10` decreases. -/
def natDigitsAux : ℕ → ℕ → List Char
  | 0, _ => []
  | fuel + 1, n =>
    if n < 10 then [Nat.digitChar n]
    else natDigitsAux fuel (n / 10) ++ [Nat.digitChar (n % 10)]

/-- Decimal digit characters of `n`, most significant first (`"0"` for 0). -/
def natDigitsStr (n : ℕ) : List Char := natDigitsAux (n + 1) n

/-- Python `str` of an `int`: an optional minus sign and the decimal digits. -/
def intStr (z : ℤ) : String :=
  String.mk ((if z < 0 then ['-'] else []) ++ natDigitsStr z.natAbs)

/-- Trailing zeros stripped from a character list. -/
def dropTrailingZeros (l : List Char) : List Char :=
  (l.reverse.dropWhile (fun c => c = '0')).reverse

/-- The digits of `fr`, zero-padded on the left to `p` places (the fractional
digit block of `fr / 10 ^ p`). -/
def fracBlock (fr p : ℕ) : List Char :=
  List.replicate (p - (natDigitsStr fr).length) '0' ++ natDigitsStr fr

/-- The fractional digits printed for `fr / 10 ^ p`: the block with its
trailing zeros stripped, or the single digit `0` when nothing remains. -/
def fracPart (fr p : ℕ) : List Char :=
  if (dropTrailingZeros (fracBlock fr p)).isEmpty then ['0']
  else dropTrailingZeros (fracBlock fr p)

/-- Python `str` of a `float`, as characters: its shortest decimal form, with
at least one fractional digit (`str(600.0)` is `"600.0"`, `str(3.17)` is
`"3.17"`). -/
def floatStrL (d : Dec) : List Char :=
  (if d.man < 0 then ['-'] else [])
    ++ natDigitsStr (d.man.natAbs / 10 ^ d.exp)
    ++ '.' :: fracPart (d.man.natAbs % 10 ^ d.exp) d.exp

/-- Python `str` of a `float`. -/
def floatStr (d : Dec) : String := String.mk (floatStrL d)

/-- Python `str` on a number. -/
def pyStr : PyNum → String
  | .int z => intStr z
  | .float d => floatStr d

/-- Python `str.zfill(w)`: left-pad with zeros to width `w`, zeros going after
a leading sign. -/
def pyZfill (s : String) (w : ℕ) : String :=
  let fill := List.replicate (w - s.length) '0'
  match s.data with
  | '-' :: rest => String.mk ('-' :: (fill ++ rest))
  | '+' :: rest => String.mk ('+' :: (fill ++ rest))
  | l => String.mk (fill ++ l)

/-- Python `"%04d" % z`: decimal, zero-padded to total width 4 (the sign
counts towards the width). -/
def pct04d (z : ℤ) : String :=
  if z < 0 then "-" ++ pyZfill (toString z.natAbs) 3 else pyZfill (toString z.natAbs) 4

/-- Number of decimal digits of `n` (1 for `n = 0`), with fuel. -/
def digitsLen : ℕ → ℕ → ℕ
  | 0, _ => 1
  | f + 1, n => if n < 10 then 1 else digitsLen f (n / 10) + 1

/-- `a / b` rounded half to even (the rounding of C and Python float
formatting). -/
def rheDiv (a b : ℕ) : ℕ :=
  let q := a / b
  let r := a % b
  if 2 * r < b then q
  else if b < 2 * r then q + 1
  else if q % 2 = 0 then q else q + 1

/-- Python `"%.3e" % x` for a nonnegative decimal `n / 10 ^ p`:
`d.ddde±XX`, a 4-significant-digit mantissa and an exponent of at least two
digits.  The decimal exponent of `n / 10 ^ p` is `(digits of n) - 1 - p`, and
the rounded mantissa `dddd` is `n * 1000 / 10 ^ (digits of n - 1)` half-even,
rolling over to `(1000, exponent + 1)` when it reaches `10000`. -/
def pct3e (n : ℕ) (p : ℕ) : String :=
  if n = 0 then "0.000e+00"
  else
    let L := digitsLen 64 n
    let e : ℤ := (L : ℤ) - 1 - (p : ℤ)
    let m := rheDiv (n * 1000) (10 ^ (L - 1))
    let me : ℕ × ℤ := if m = 10000 then (1000, e + 1) else (m, e)
    let ds := toString me.1
    let eabs := toString me.2.natAbs
    String.mk [ds.data.headD '0'] ++ "." ++ String.mk (ds.data.drop 1)
      ++ "e" ++ (if me.2 < 0 then "-" else "+")
      ++ (if eabs.length < 2 then "0" ++ eabs else eabs)

/-- Python string indexing `s[i]` (a negative index counts from the end).
The strings indexed in this development always have length 9, so the
fallback character is unreachable. -/
def pyIdx (s : String) (i : ℤ) : Char :=
  if i < 0 then s.data.getD (s.data.length - i.natAbs) '?' else s.data.getD i.toNat '?'

/-- Python `s.strip("0")`: strips `0` characters from both ends. -/
def pyStrip0 (l : List Char) : List Char :=
  dropTrailingZeros (l.dropWhile (fun c => c = '0'))

/-- Python `s.split(".")`. -/
def splitDotL : List Char → List (List Char)
  | [] => [[]]
  | c :: t =>
    if c = '.' then [] :: splitDotL t
    else
      match splitDotL t with
      | [] => [[c]]
      | s :: ss => (c :: s) :: ss

/-- The tuple unpacking `whole, decimals = parts`: succeeds exactly for a
two-element list, any other shape raises a `ValueError`. -/
def unpack2 : List (List Char) → Option (List Char × List Char)
  | [a, b] => some (a, b)
  | _ => none

/-- One accumulation pass of Python `int`: fold the digits into a value,
failing on any non-digit character. -/
def digitsValGo : Option ℕ → List Char → Option ℕ
  | acc, [] => acc
  | acc, c :: t =>
    digitsValGo (acc.bind (fun n => if c.isDigit then some (10 * n + (c.toNat - 48)) else none)) t

/-- Value of a nonempty all-digit character list (`none` models the
`ValueError` of Python `int` on anything else). -/
def digitsVal (ds : List Char) : Option ℕ :=
  if ds.isEmpty then none else digitsValGo (some 0) ds

/-- Python `int(s)`: an optional sign followed by at least one digit. -/
def pyIntParse (l : List Char) : Option ℤ :=
  match l with
  | [] => none
  | c :: ds =>
    if c = '-' then (digitsVal ds).map (fun n => -(n : ℤ))
    else if c = '+' then (digitsVal ds).map (fun n => (n : ℤ))
    else (digitsVal (c :: ds)).map (fun n => (n : ℤ))

namespace Pump

/-- The shared tail of the discrete type 2 pipeline, after the character
strip: `whole, decimals = s.split(".")` then `b"%04d" % int(whole + decimals)`. -/
def discrete2Core (l : List Char) : Option String :=
  match unpack2 (splitDotL l) with
  | none => none
  | some (w, d) => (pyIntParse (w ++ d)).map pct04d

/-- `Pump._discrete2`: `s = str(number).strip("0")`;
`whole, decimals = s.split(".")`; `b"%04d" % int(whole + decimals)`.
`none` models the exceptions the statements can raise. -/
def _discrete2 (n : PyNum) : Option String :=
  discrete2Core (pyStrip0 (pyStr n).data)

/-- Modelled from the spec: the discrete type 2 encoder as the spec words it,
stripping only the TRAILING zeros of the decimal string before splitting and
padding (`Pump._discrete2` strips both ends).  For comparison with
`_discrete2`. -/
def discrete2SpecStrip (n : PyNum) : Option String :=
  discrete2Core (dropTrailingZeros (pyStr n).data)

/-- The command bytes built by `Pump.setTubingInnerDiameter` for one channel:
`b"%d+%s" % (channel, self._discrete2(diam))`; `none` models the exception
propagating out of `_discrete2`. -/
def setTubingInnerDiameterCmd (diam : PyNum) (channel : ℤ) : Option Bytes :=
  (_discrete2 diam).map (fun s => bstr (toString channel) ++ bstr ("+") ++ bstr s)

/-- The conversion shared by `Pump._time1` and `Pump._time2` before the
clamp: `number = 10 * number`; `if units == "m": number = 60 * number`;
`if units == "h": number = 60 * number`.  Note that the `"h"` branch also
multiplies by 60 only. -/
def timeNumber (n : PyNum) (units : String) : PyNum :=
  let number := pyMul (.int 10) n
  let number := if units = "m" then pyMul (.int 60) number else number
  if units = "h" then pyMul (.int 60) number else number

/-- `Pump._time1`: the conversion above, then
`str(min(number, 35964000)).replace(".", "")`. -/
def _time1 (n : PyNum) (units : String) : String :=
  String.mk ((pyStr (pyMin (timeNumber n units) (.int 35964000))).data.filter (fun c => c ≠ '.'))

/-- `Pump._time2`: as `_time1` followed by `.zfill(8)`. -/
def _time2 (n : PyNum) (units : String) : String :=
  pyZfill
    (String.mk ((pyStr (pyMin (timeNumber n units) (.int 35964000))).data.filter (fun c => c ≠ '.')))
    8

/-- `Pump._volume2`: `number = "%.3e" % abs(number)` followed by
`number[0] + number[2:5] + number[-3] + number[-1]`
(the slice `[2:5]` is `take 3` of `drop 2`). -/
def _volume2 (x : PyNum) : String :=
  let number := pct3e x.manexp.1.natAbs x.manexp.2
  String.mk ([pyIdx number 0] ++ (number.data.drop 2).take 3
    ++ [pyIdx number (-3), pyIdx number (-1)])

/-- `Pump._volume1`: as `_volume2` with a literal `E` before the exponent
sign. -/
def _volume1 (x : PyNum) : String :=
  let number := pct3e x.manexp.1.natAbs x.manexp.2
  String.mk ([pyIdx number 0] ++ (number.data.drop 2).take 3
    ++ ['E', pyIdx number (-3), pyIdx number (-1)])

end Pump

/-- Python `str.strip()` (no argument): whitespace stripped from both ends. -/
def pyStrStrip (s : String) : String :=
  String.mk ((s.data.dropWhile Char.isWhitespace).reverse.dropWhile Char.isWhitespace).reverse

/-- An ASCII whitespace byte (the set stripped by `bytes.strip()`). -/
def wsByte (n : ℕ) : Bool :=
  n == 9 || n == 10 || n == 11 || n == 12 || n == 13 || n == 32

/-- Python `bytes.strip()` (no argument): ASCII whitespace stripped from both
ends. -/
def bytesStrip (b : Bytes) : Bytes :=
  ((b.dropWhile wsByte).reverse.dropWhile wsByte).reverse

namespace Communicator

/-- The running-state table `self.running`: a Python dict from channel number
to bool, insertion-ordered with unique keys. -/
abbrev RunDict := List (ℤ × Bool)

/-- Python `running[ch] = status`: update the entry of an existing key in
place, append a new key at the end. -/
def dset : RunDict → ℤ → Bool → RunDict
  | [], k, v => [(k, v)]
  | (k0, v0) :: t, k, v => if k0 = k then (k, v) :: t else (k0, v0) :: dset t k v

/-- Python `running[ch]` lookup. -/
def dget? : RunDict → ℤ → Option Bool
  | [], _ => none
  | (k0, v0) :: t, k => if k0 = k then some v0 else dget? t k

/-- The `channel` argument of `setRunningStatus`: a single number or a
list/tuple of numbers. -/
inductive Chan where
  | one (c : ℤ)
  | many (cs : List ℤ)

/-- `Communicator.setRunningStatus`: a list/tuple sets each listed channel in
order; otherwise the sentinel `0` sets every key currently in the dict (a
snapshot of `self.running.keys()`); otherwise the one given channel. -/
def setRunningStatus (status : Bool) (channel : Chan) (running : RunDict) : RunDict :=
  match channel with
  | .many cs => cs.foldl (fun a c => dset a c status) running
  | .one c =>
    if c = 0 then (running.map (fun p => p.1)).foldl (fun a k => dset a k status) running
    else dset running c status

/-- A reply delivered on `res_q`: the serial worker delivers raw `bytes`, the
socket worker delivers decoded `str`. -/
inductive Reply where
  | bytes (b : Bytes)
  | str (s : String)
deriving DecidableEq

/-- Python 3 equality between a `bytes` value and a `str` value: always
`False`, whatever the contents. -/
def pyEqBytesStr (_ : Bytes) (_ : String) : Bool := false

/-- The value returned by `Communicator.write` once its reply `r` arrives
from `res_q`: `True` iff `result == "*"`, else `False` (after a debug
warning). -/
def writeReturn (r : Reply) : Bool :=
  match r with
  | .str s => s == "*"
  | .bytes b => pyEqBytesStr b ("*")

/-- Python `int(c)` on a single character: its digit value, a `ValueError`
otherwise. -/
def pyIntChar (c : Char) : Option ℤ :=
  if c.isDigit then some ((c.toNat : ℤ) - 48) else none

/-- The between-requests notification handler of `SocketCommunicator.loop`:
`if line:` then `line[:2] == "^U"` sets `running[int(line[2])] = True`,
`line[:2] == "^X"` sets it `False`, anything else is ignored.  `none` models
an uncaught exception: `IndexError` from `line[2]` on a line of length 2, or
`ValueError` from `int` on a non-digit. -/
def sockNotify (line : String) (running : RunDict) : Option RunDict :=
  if line.data = [] then some running
  else if line.data.take 2 = ['^', 'U'] then
    match line.data.get? 2 with
    | none => none
    | some c =>
      match pyIntChar c with
      | none => none
      | some ch => some (dset running ch true)
  else if line.data.take 2 = ['^', 'X'] then
    match line.data.get? 2 with
    | none => none
    | some c =>
      match pyIntChar c with
      | none => none
      | some ch => some (dset running ch false)
  else some running

/-- The between-requests notification handler of `SerialCommunicator.loop`:
the line is `bytes` (pyserial `readline`), so `line[:2] == "^U"` and
`line[:2] == "^X"` compare `bytes` with `str` and are always `False` in
Python 3; the dict is never touched.  (Were a branch reachable, `bytes`
indexing returns `int`, so `int(line[2])` would be the raw byte value,
modelled by `getD`.) -/
def serialNotify (line : Bytes) (running : RunDict) : RunDict :=
  if line.length = 0 then running
  else if pyEqBytesStr (line.take 2) ("^U") then dset running (line.getD 2 0 : ℤ) true
  else if pyEqBytesStr (line.take 2) ("^X") then dset running (line.getD 2 0 : ℤ) false
  else running

end Communicator

namespace SerialCommunicator

/- Reads are modelled by an oracle: each `self.ser.read(...)`/`readline()`
call consumes the next pre-arranged result in order (an empty result models
a timeout, which pyserial reports as an empty buffer, not an error). -/

/-- The command branch of `SerialCommunicator.loop`
(`if self.cmd_q.qsize():`).  Returns (bytes written, replies delivered,
remaining command queue, remaining read oracle).  In order: write
`b"1xE0\r"` and read its one-byte ack; read up to 100 bytes of stray input
(`flush`, only logged); pop one command, write it plus `b"\r"`, read the
one-byte reply `res` and put it on `res_q`; write `b"1xE1\r"` and read its
ack. -/
def cmdBranch (cmdQ : List Bytes) (o : List Bytes) :
    List Bytes × List Communicator.Reply × List Bytes × List Bytes :=
  if cmdQ.isEmpty then ([], [], cmdQ, o)
  else
    let o1 := o.tail                      -- self.ser.read(size=1) after b"1xE0\r"
    let o2 := o1.tail                     -- flush = self.ser.read(100)
    let cmd := cmdQ.headD []              -- cmd = self.cmd_q.get()
    let res := o2.headD []                -- res = self.ser.read(size=1)
    let o3 := o2.tail
    let o4 := o3.tail                     -- self.ser.read(size=1) after b"1xE1\r"
    ([bstr ("1xE0\r"), cmd ++ bstr ("\r"), bstr ("1xE1\r")],
      [Communicator.Reply.bytes res], cmdQ.tail, o4)

/-- The query branch of `SerialCommunicator.loop` (`if self.que_q.qsize():`):
as the command branch, but the reply is `self.ser.readline().strip()`. -/
def queBranch (queQ : List Bytes) (o : List Bytes) :
    List Bytes × List Communicator.Reply × List Bytes × List Bytes :=
  if queQ.isEmpty then ([], [], queQ, o)
  else
    let o1 := o.tail                      -- ack read of b"1xE0\r"
    let o2 := o1.tail                     -- flush = self.ser.read(100)
    let cmd := queQ.headD []              -- cmd = self.que_q.get()
    let res := o2.headD []                -- res = self.ser.readline()
    let o3 := o2.tail
    let o4 := o3.tail                     -- ack read of b"1xE1\r"
    ([bstr ("1xE0\r"), cmd ++ bstr ("\r"), bstr ("1xE1\r")],
      [Communicator.Reply.bytes (bytesStrip res)], queQ.tail, o4)

/-- The observable outcome of one `SerialCommunicator.loop` iteration. -/
structure LoopOut where
  writes : List Bytes
  resQ : List Communicator.Reply
  running : Communicator.RunDict
deriving DecidableEq

/-- One iteration of `SerialCommunicator.loop`: the command branch, then the
query branch, then one `readline` polled for an asynchronous notification. -/
def loopIter (cmdQ queQ : List Bytes) (running : Communicator.RunDict) (o : List Bytes) :
    LoopOut :=
  let c := cmdBranch cmdQ o
  let q := queBranch queQ c.2.2.2
  let line := q.2.2.2.headD []            -- line = self.ser.readline()
  { writes := c.1 ++ q.1
    resQ := c.2.1 ++ q.2.1
    running := Communicator.serialNotify line running }

end SerialCommunicator

namespace SocketCommunicator

/-- `msg.endswith("\r\n")`. -/
def endsCRLF (m : List Char) : Bool :=
  match m.reverse with
  | '\n' :: '\r' :: _ => true
  | _ => false

/-- The accumulation loop of `SocketCommunicator.readline`: `polls i` is the
result of the i-th `timeout_recv(1)` (`""` when nothing arrived within that
timeout of that poll).  Elapsed time is modelled by an iteration budget: each
iteration costs the poll wait plus the fixed `time.sleep(.01)`, so the
`time.time() - t0 > timeout` check fires after a bounded number of
iterations.  The loop breaks on a `\r\n` suffix of the whole accumulated
message or on budget exhaustion - the code has no check for `"*"`.  Returns
the message and the number of polls consumed. -/
def readlineGo (polls : ℕ → String) : ℕ → ℕ → List Char → List Char × ℕ
  | 0, i, msg => (msg ++ (polls i).data, i + 1)
  | fuel + 1, i, msg =>
    if endsCRLF (msg ++ (polls i).data) then (msg ++ (polls i).data, i + 1)
    else readlineGo polls fuel (i + 1) (msg ++ (polls i).data)

/-- `SocketCommunicator.readline` over a poll oracle and a time budget. -/
def readline (polls : ℕ → String) (budget : ℕ) : List Char × ℕ :=
  readlineGo polls budget 0 []

/- The loop below models each `timeout_recv`/`readline` call as consuming one
pre-arranged decoded-string result from an oracle, in call order. -/

/-- The command branch of `SocketCommunicator.loop`: as the serial one, with
`socket.send` for writes and `timeout_recv` results for reads; the reply put
on `res_q` is the decoded string `res = self.timeout_recv(1)`. -/
def cmdBranch (cmdQ : List Bytes) (o : List String) :
    List Bytes × List Communicator.Reply × List Bytes × List String :=
  if cmdQ.isEmpty then ([], [], cmdQ, o)
  else
    let o1 := o.tail                      -- self.timeout_recv(1) after b"1xE0\r"
    let o2 := o1.tail                     -- flush = self.timeout_recv(100)
    let cmd := cmdQ.headD []              -- cmd = self.cmd_q.get()
    let res := o2.headD ("")              -- res = self.timeout_recv(1)
    let o3 := o2.tail
    let o4 := o3.tail                     -- self.timeout_recv(1) after b"1xE1\r"
    ([bstr ("1xE0\r"), cmd ++ bstr ("\r"), bstr ("1xE1\r")],
      [Communicator.Reply.str res], cmdQ.tail, o4)

/-- The query branch of `SocketCommunicator.loop`: the reply is
`self.readline().strip()`. -/
def queBranch (queQ : List Bytes) (o : List String) :
    List Bytes × List Communicator.Reply × List Bytes × List String :=
  if queQ.isEmpty then ([], [], queQ, o)
  else
    let o1 := o.tail                      -- timeout_recv(1) after b"1xE0\r"
    let o2 := o1.tail                     -- flush = self.timeout_recv(100)
    let cmd := queQ.headD []              -- cmd = self.que_q.get()
    let res := o2.headD ("")              -- res = self.readline()
    let o3 := o2.tail
    let o4 := o3.tail                     -- timeout_recv(1) after b"1xE1\r"
    ([bstr ("1xE0\r"), cmd ++ bstr ("\r"), bstr ("1xE1\r")],
      [Communicator.Reply.str (pyStrStrip res)], queQ.tail, o4)

/-- The observable outcome of one `SocketCommunicator.loop` iteration;
`running = none` marks an exception escaping the notification handling (it
happens after all sends of the iteration, the notification poll being
last). -/
structure LoopOut where
  writes : List Bytes
  resQ : List Communicator.Reply
  running : Option Communicator.RunDict
deriving DecidableEq

/-- One iteration of `SocketCommunicator.loop`: the command branch, then the
query branch, then one `readline` polled for an asynchronous notification. -/
def loopIter (cmdQ queQ : List Bytes) (running : Communicator.RunDict) (o : List String) :
    LoopOut :=
  let c := cmdBranch cmdQ o
  let q := queBranch queQ c.2.2.2
  let line := q.2.2.2.headD ("")          -- line = self.readline()
  { writes := c.1 ++ q.1
    resQ := c.2.1 ++ q.2.1
    running := Communicator.sockNotify line running }

end SocketCommunicator


/-- The poll oracle of the lone-acknowledgement scenario: the first
`timeout_recv(1)` yields `"*"`, every later poll times out. -/
def starPolls : ℕ → String := fun i => if i = 0 then "*" else ""

/- ------------------------------------------------------------------ -/
/- Helper lemmas                                                      -/
/- ------------------------------------------------------------------ -/

theorem dropWhile_eq_self_of_head (l : List Char) (p : Char → Bool)
    (h : ∀ c, l.head? = some c → p c = false) : l.dropWhile p = l := by
  cases l with
  | nil => rfl
  | cons c t => simp [List.dropWhile_cons, h c rfl]

theorem mem_of_mem_dropWhile {α : Type} (p : α → Bool) :
    ∀ {l : List α} {a : α}, a ∈ l.dropWhile p → a ∈ l := by
  intro l
  induction l with
  | nil => intro a h; rw [List.dropWhile_nil] at h; exact h
  | cons c t ih =>
    intro a h
    rw [List.dropWhile_cons] at h
    by_cases hc : p c = true
    · rw [if_pos hc] at h
      exact List.mem_cons_of_mem c (ih h)
    · rw [if_neg hc] at h
      exact h

theorem not_mem_pyStrip0 {l : List Char} {a : Char} (h : a ∉ l) : a ∉ pyStrip0 l := by
  intro hmem
  apply h
  unfold pyStrip0 dropTrailingZeros at hmem
  rw [List.mem_reverse] at hmem
  have h1 := mem_of_mem_dropWhile _ hmem
  rw [List.mem_reverse] at h1
  exact mem_of_mem_dropWhile _ h1

theorem splitDotL_of_not_mem : ∀ (l : List Char), '.' ∉ l → splitDotL l = [l] := by
  intro l
  induction l with
  | nil => intro _; rfl
  | cons c t ih =>
    intro h
    have hc : ¬(c = '.') := fun e => h (e ▸ List.mem_cons_self c t)
    have ht : '.' ∉ t := fun m => h (List.mem_cons_of_mem c m)
    simp [splitDotL, hc, ih ht]

theorem dget_dset (d : Communicator.RunDict) (k : ℤ) (v : Bool) (c : ℤ) :
    Communicator.dget? (Communicator.dset d k v) c
      = if c = k then some v else Communicator.dget? d c := by
  induction d with
  | nil =>
    by_cases h : c = k
    · subst h; simp [Communicator.dset, Communicator.dget?]
    · simp [Communicator.dset, Communicator.dget?, h, Ne.symm h]
  | cons p t ih =>
    obtain ⟨k0, v0⟩ := p
    by_cases hk : k0 = k
    · subst hk
      by_cases hc : c = k0
      · subst hc; simp [Communicator.dset, Communicator.dget?]
      · simp [Communicator.dset, Communicator.dget?, hc, Ne.symm hc]
    · by_cases hc : k0 = c
      · subst hc
        simp [Communicator.dset, Communicator.dget?, hk, Ne.symm hk]
      · simp [Communicator.dset, Communicator.dget?, hk, hc, ih]

theorem dget_foldl_dset (ks : List ℤ) (st : Bool) :
    ∀ (d : Communicator.RunDict) (c : ℤ),
      Communicator.dget? (ks.foldl (fun a k => Communicator.dset a k st) d) c
        = if c ∈ ks then some st else Communicator.dget? d c := by
  induction ks with
  | nil => intro d c; simp
  | cons k t ih =>
    intro d c
    rw [List.foldl_cons, ih]
    by_cases hm : c ∈ t
    · simp [hm]
    · rw [if_neg hm, dget_dset]
      by_cases hk : c = k
      · subst hk; simp
      · simp [hk, hm]

theorem readlineGo_ends_or_budget (polls : ℕ → String) :
    ∀ (fuel i : ℕ) (msg : List Char),
      SocketCommunicator.endsCRLF (SocketCommunicator.readlineGo polls fuel i msg).1 = true ∨
      (SocketCommunicator.readlineGo polls fuel i msg).2 = i + fuel + 1 := by
  intro fuel
  induction fuel with
  | zero => intro i msg; right; rfl
  | succ f ih =>
    intro i msg
    by_cases h : SocketCommunicator.endsCRLF (msg ++ (polls i).data) = true
    · left
      simp only [SocketCommunicator.readlineGo]
      rw [if_pos h]
      exact h
    · simp only [SocketCommunicator.readlineGo]
      rw [if_neg h]
      rcases ih (i + 1) (msg ++ (polls i).data) with hl | hr
      · left; exact hl
      · right; rw [hr]; omega


theorem readlineGo_star (fuel : ℕ) :
    ∀ i : ℕ, 1 ≤ i →
      SocketCommunicator.readlineGo starPolls fuel i ['*'] = (['*'], i + fuel + 1) := by
  induction fuel with
  | zero =>
    intro i hi
    have h0 : starPolls i = "" := by unfold starPolls; rw [if_neg (by omega)]
    simp [SocketCommunicator.readlineGo, h0]
  | succ f ih =>
    intro i hi
    have h0 : starPolls i = "" := by unfold starPolls; rw [if_neg (by omega)]
    simp only [SocketCommunicator.readlineGo, h0]
    rw [show (['*'] ++ (("" : String).data)) = ['*'] from rfl]
    rw [if_neg (by decide)]
    rw [ih (i + 1) (by omega)]
    have : i + 1 + f + 1 = i + (f + 1) + 1 := by omega
    rw [this]

theorem readline_star (budget : ℕ) :
    SocketCommunicator.readline starPolls budget = (['*'], budget + 1) := by
  unfold SocketCommunicator.readline
  cases budget with
  | zero => rfl
  | succ b =>
    simp only [SocketCommunicator.readlineGo]
    rw [show (([] : List Char) ++ (starPolls 0).data) = ['*'] from rfl]
    rw [if_neg (by decide)]
    rw [readlineGo_star b 1 (by omega)]
    have hb : 1 + b + 1 = b + 1 + 1 := by omega
    rw [hb]

theorem head?_append_left {A : Type} (l1 l2 : List A) (h : l1 ≠ []) :
    (l1 ++ l2).head? = l1.head? := by
  cases l1 with
  | nil => exact absurd rfl h
  | cons a t => rfl

theorem digitChar_isDigit (m : ℕ) (h : m < 10) : (Nat.digitChar m).isDigit = true := by
  interval_cases m <;> decide

theorem digitChar_ne_zero (m : ℕ) (h1 : 1 ≤ m) (h2 : m < 10) : Nat.digitChar m ≠ '0' := by
  interval_cases m <;> decide

theorem natDigitsAux_ne_nil (fuel n : ℕ) (h : n < fuel) : natDigitsAux fuel n ≠ [] := by
  cases fuel with
  | zero => omega
  | succ f =>
    simp only [natDigitsAux]
    by_cases h10 : n < 10
    · rw [if_pos h10]; simp
    · rw [if_neg h10]; simp

theorem natDigitsAux_digits : ∀ (fuel n : ℕ), n < fuel →
    ∀ c ∈ natDigitsAux fuel n, c.isDigit = true := by
  intro fuel
  induction fuel with
  | zero => intro n h; omega
  | succ f ih =>
    intro n h c hc
    simp only [natDigitsAux] at hc
    by_cases h10 : n < 10
    · rw [if_pos h10] at hc
      rw [List.mem_singleton] at hc
      subst hc
      exact digitChar_isDigit n h10
    · rw [if_neg h10] at hc
      have hdiv : n / 10 < f := by
        have := Nat.div_lt_self (show 0 < n by omega) (show 1 < 10 by omega)
        omega
      rcases List.mem_append.mp hc with h1 | h2
      · exact ih (n / 10) hdiv c h1
      · rw [List.mem_singleton] at h2
        subst h2
        exact digitChar_isDigit _ (Nat.mod_lt _ (by omega))

theorem natDigitsAux_head_ne_zero : ∀ (fuel n : ℕ), n < fuel → 1 ≤ n →
    (natDigitsAux fuel n).head? ≠ some '0' := by
  intro fuel
  induction fuel with
  | zero => intro n h; omega
  | succ f ih =>
    intro n h h1
    simp only [natDigitsAux]
    by_cases h10 : n < 10
    · rw [if_pos h10]
      intro he
      rw [List.head?_cons] at he
      exact digitChar_ne_zero n h1 h10 (Option.some.inj he)
    · rw [if_neg h10]
      have hdiv : n / 10 < f := by
        have := Nat.div_lt_self (show 0 < n by omega) (show 1 < 10 by omega)
        omega
      rw [head?_append_left _ _ (natDigitsAux_ne_nil f (n / 10) hdiv)]
      have hone : 1 ≤ n / 10 := (Nat.one_le_div_iff (by omega)).mpr (by omega)
      exact ih (n / 10) hdiv hone

theorem natDigitsStr_ne_nil (n : ℕ) : natDigitsStr n ≠ [] :=
  natDigitsAux_ne_nil (n + 1) n (by omega)

theorem natDigitsStr_digits (n : ℕ) : ∀ c ∈ natDigitsStr n, c.isDigit = true :=
  natDigitsAux_digits (n + 1) n (by omega)

theorem natDigitsStr_head_zero (n : ℕ) (h : (natDigitsStr n).head? = some '0') : n = 0 := by
  by_contra hn
  exact natDigitsAux_head_ne_zero (n + 1) n (by omega) (by omega) h

theorem natDigitsStr_zero : natDigitsStr 0 = ['0'] := by decide

theorem dropWhile_append_singleton {p : Char → Bool} (c : Char) (hc : p c = false) :
    ∀ xs : List Char, (xs ++ [c]).dropWhile p = xs.dropWhile p ++ [c] := by
  intro xs
  induction xs with
  | nil => simp [List.dropWhile_cons, hc]
  | cons x t ih =>
    by_cases hx : p x = true
    · simp [List.dropWhile_cons, hx, ih]
    · simp [List.dropWhile_cons, hx]

theorem dropWhile_append_of_ne_nil {p : Char → Bool} :
    ∀ (xs ys : List Char), xs.dropWhile p ≠ [] →
      (xs ++ ys).dropWhile p = xs.dropWhile p ++ ys := by
  intro xs
  induction xs with
  | nil => intro ys h; exact absurd rfl h
  | cons x t ih =>
    intro ys h
    by_cases hx : p x = true
    · rw [List.dropWhile_cons, if_pos hx] at h
      simp only [List.cons_append, List.dropWhile_cons, if_pos hx]
      exact ih ys h
    · simp [List.dropWhile_cons, hx]

theorem dropTrailingZeros_cons_of_ne (c : Char) (f : List Char) (hc : ¬(c = '0')) :
    dropTrailingZeros (c :: f) = c :: dropTrailingZeros f := by
  unfold dropTrailingZeros
  rw [List.reverse_cons, dropWhile_append_singleton c (decide_eq_false hc) f.reverse]
  rw [List.reverse_append]
  rfl

theorem dropTrailingZeros_cons_zero (rest : List Char) (h : dropTrailingZeros rest ≠ []) :
    dropTrailingZeros ('0' :: rest) = '0' :: dropTrailingZeros rest := by
  have hne : rest.reverse.dropWhile (fun ch => ch = '0') ≠ [] := by
    intro he
    apply h
    unfold dropTrailingZeros
    rw [he]
    rfl
  unfold dropTrailingZeros
  rw [List.reverse_cons, dropWhile_append_of_ne_nil rest.reverse ['0'] hne]
  rw [List.reverse_append]
  rfl

theorem mem_of_mem_dropTrailingZeros {l : List Char} {a : Char}
    (h : a ∈ dropTrailingZeros l) : a ∈ l := by
  unfold dropTrailingZeros at h
  rw [List.mem_reverse] at h
  have h1 := mem_of_mem_dropWhile _ h
  rw [List.mem_reverse] at h1
  exact h1

theorem mem_dropWhile_of_not {A : Type} (p : A → Bool) :
    ∀ (l : List A) (a : A), a ∈ l → p a = false → a ∈ l.dropWhile p := by
  intro l
  induction l with
  | nil => intro a h; exact absurd h (List.not_mem_nil a)
  | cons x t ih =>
    intro a h hpa
    rw [List.dropWhile_cons]
    by_cases hx : p x = true
    · rw [if_pos hx]
      rcases List.mem_cons.mp h with he | ht
      · subst he; rw [hpa] at hx; cases hx
      · exact ih a ht hpa
    · rw [if_neg hx]; exact h

theorem mem_dropTrailingZeros_of_ne {l : List Char} {a : Char}
    (h : a ∈ l) (ha : ¬(a = '0')) : a ∈ dropTrailingZeros l := by
  unfold dropTrailingZeros
  rw [List.mem_reverse]
  exact mem_dropWhile_of_not _ l.reverse a (List.mem_reverse.mpr h) (decide_eq_false ha)

theorem digitsVal_cons_zero (ds : List Char) (h : ds ≠ []) :
    digitsVal ('0' :: ds) = digitsVal ds := by
  obtain ⟨x, t, rfl⟩ : ∃ x t, ds = x :: t := by
    cases ds with
    | nil => exact absurd rfl h
    | cons x t => exact ⟨x, t, rfl⟩
  rfl

theorem pyIntParse_cons_digit (c : Char) (t : List Char) (h : c.isDigit = true) :
    pyIntParse (c :: t) = (digitsVal (c :: t)).map (fun n => (n : ℤ)) := by
  have h1 : ¬(c = '-') := by intro e; subst e; exact absurd h (by decide)
  have h2 : ¬(c = '+') := by intro e; subst e; exact absurd h (by decide)
  simp only [pyIntParse, if_neg h1, if_neg h2]

theorem splitDotL_cons_dot (t : List Char) : splitDotL ('.' :: t) = [] :: splitDotL t := by
  simp [splitDotL]

theorem splitDotL_cons_ne (c : Char) (t : List Char) (h : ¬(c = '.')) :
    splitDotL (c :: t)
      = match splitDotL t with
        | [] => [[c]]
        | s :: ss => (c :: s) :: ss := by
  simp only [splitDotL, if_neg h]

theorem fracPart_digits (fr p : ℕ) : ∀ ch ∈ fracPart fr p, ch.isDigit = true := by
  intro ch hm
  unfold fracPart at hm
  by_cases he : (dropTrailingZeros (fracBlock fr p)).isEmpty = true
  · rw [if_pos he] at hm
    rw [List.mem_singleton] at hm
    subst hm
    decide
  · rw [if_neg he] at hm
    have hb := mem_of_mem_dropTrailingZeros hm
    unfold fracBlock at hb
    rcases List.mem_append.mp hb with h1 | h2
    · rw [List.eq_of_mem_replicate h1]
      decide
    · exact natDigitsStr_digits _ ch h2

theorem discrete2Core_strip_agree_zero (f : List Char)
    (hdig : ∀ c ∈ f, c.isDigit = true) (hnz : ∃ c ∈ f, ¬(c = '0')) :
    Pump.discrete2Core (pyStrip0 ('0' :: '.' :: f))
      = Pump.discrete2Core (dropTrailingZeros ('0' :: '.' :: f)) := by
  obtain ⟨c, hcf, hc0⟩ := hnz
  have hcm : c ∈ dropTrailingZeros f := mem_dropTrailingZeros_of_ne hcf hc0
  have hne : dropTrailingZeros f ≠ [] := by
    intro he
    rw [he] at hcm
    exact absurd hcm (List.not_mem_nil c)
  have hdig2 : ∀ ch ∈ dropTrailingZeros f, ch.isDigit = true :=
    fun ch hm => hdig ch (mem_of_mem_dropTrailingZeros hm)
  have hnodot : '.' ∉ dropTrailingZeros f := by
    intro hm
    exact absurd (hdig2 '.' hm) (by decide)
  have hdot : dropTrailingZeros ('.' :: f) = '.' :: dropTrailingZeros f :=
    dropTrailingZeros_cons_of_ne '.' f (by decide)
  have hL : pyStrip0 ('0' :: '.' :: f) = '.' :: dropTrailingZeros f := by
    unfold pyStrip0
    rw [show ('0' :: '.' :: f).dropWhile (fun ch => ch = '0') = '.' :: f from by
      simp [List.dropWhile_cons]]
    exact hdot
  have hR : dropTrailingZeros ('0' :: '.' :: f) = '0' :: '.' :: dropTrailingZeros f := by
    rw [dropTrailingZeros_cons_zero ('.' :: f) (by rw [hdot]; simp), hdot]
  rw [hL, hR]
  have hs : splitDotL (dropTrailingZeros f) = [dropTrailingZeros f] :=
    splitDotL_of_not_mem _ hnodot
  have h1 : splitDotL ('.' :: dropTrailingZeros f) = [[], dropTrailingZeros f] := by
    rw [splitDotL_cons_dot, hs]
  have h2 : splitDotL ('0' :: '.' :: dropTrailingZeros f) = [['0'], dropTrailingZeros f] := by
    rw [splitDotL_cons_ne '0' _ (by decide), h1]
  obtain ⟨c1, t1, hf1⟩ : ∃ c1 t1, dropTrailingZeros f = c1 :: t1 := by
    cases hh : dropTrailingZeros f with
    | nil => exact absurd hh hne
    | cons a b => exact ⟨a, b, rfl⟩
  have hc1 : c1.isDigit = true := by
    apply hdig2
    rw [hf1]
    exact List.mem_cons_self c1 t1
  unfold Pump.discrete2Core
  rw [h1, h2]
  simp only [unpack2, List.nil_append, List.singleton_append]
  rw [hf1]
  rw [pyIntParse_cons_digit c1 t1 hc1]
  rw [show pyIntParse ('0' :: c1 :: t1) = (digitsVal ('0' :: c1 :: t1)).map (fun n => (n : ℤ))
    from pyIntParse_cons_digit '0' (c1 :: t1) (by decide)]
  rw [digitsVal_cons_zero (c1 :: t1) (by simp)]


/- ------------------------------------------------------------------ -/
/- Claims                                                             -/
/- ------------------------------------------------------------------ -/

/-- Claim C1: `Communicator.write` returns true iff the delivered reply
equals the acknowledgement byte.  This holds for the socket worker, whose
replies are decoded strings (including false on the empty timeout reply),
but the serial worker delivers the reply as raw `bytes`, and in Python 3
`bytes` never compare equal to the `str` `"*"`, so `write` returns `False`
even when the device acknowledged: evaluated here on a serviced `b"1H"`
command whose one-byte reply is `b"*"`. -/
theorem C1_write_ack_eval :
    Communicator.writeReturn (.bytes (bstr ("*"))) = false ∧
    (∀ s : String, Communicator.writeReturn (.str s) = true ↔ s = "*") ∧
    (SerialCommunicator.loopIter [bstr ("1H")] [] []
        [bstr ("*"), [], bstr ("*"), bstr ("*"), []]).resQ
      = [Communicator.Reply.bytes (bstr ("*"))] ∧
    Communicator.writeReturn (.str ("")) = false :=
  ⟨by decide, fun s => by simp [Communicator.writeReturn], by decide, by decide⟩

/-- Claim C2: with a single pending command `b"1H"` and an empty query
queue, one worker loop iteration writes exactly `b"1xE0\r"`, `b"1H\r"`,
`b"1xE1\r"` in that order (whatever the transport reads return), and
delivers exactly one reply; this holds for both the serial and the socket
worker. -/
theorem C2_single_command_writes :
    (∀ (d : Communicator.RunDict) (o : List Bytes),
      (SerialCommunicator.loopIter [bstr ("1H")] [] d o).writes
        = [bstr ("1xE0\r"), bstr ("1H\r"), bstr ("1xE1\r")] ∧
      (SerialCommunicator.loopIter [bstr ("1H")] [] d o).resQ.length = 1) ∧
    (∀ (d : Communicator.RunDict) (o : List String),
      (SocketCommunicator.loopIter [bstr ("1H")] [] d o).writes
        = [bstr ("1xE0\r"), bstr ("1H\r"), bstr ("1xE1\r")] ∧
      (SocketCommunicator.loopIter [bstr ("1H")] [] d o).resQ.length = 1) :=
  ⟨fun _ _ => ⟨rfl, rfl⟩, fun _ _ => ⟨rfl, rfl⟩⟩

/-- Claim C3, counterexample: the claim says a line too short to contain the
channel digit (for example exactly `"^U"`) is caught and discarded, and that
every `^U`-digit line sets the channel true.  In the socket worker the bare
line `"^U"` instead reaches `int(line[2])` whose `IndexError` is uncaught
(`none`), and in the serial worker even a well-formed `b"^U3\r\n"` leaves
the table untouched (bytes never equal the `str` prefixes). -/
theorem C3_notify_counterexample :
    Communicator.sockNotify ("^U") [(3, false)] = none ∧
    Communicator.serialNotify (bstr ("^U3\r\n")) [(3, false)] = [(3, false)] := by
  exact ⟨rfl, by decide⟩

/-- Claim C3, amended: in the socket worker a line `^U` plus a digit sets
that channel true, `^X` plus a digit sets it false, and a non-empty line
with neither two-character prefix leaves the table unchanged; but a bare
`"^U"` line makes the handler raise an uncaught `IndexError`, and in the
serial worker no notification line ever changes the table. -/
theorem C3_notify_amended :
    (∀ (d : Communicator.RunDict) (c : Char) (rest : List Char), c.isDigit = true →
      Communicator.sockNotify (String.mk ('^' :: 'U' :: c :: rest)) d
        = some (Communicator.dset d ((c.toNat : ℤ) - 48) true)) ∧
    (∀ (d : Communicator.RunDict) (c : Char) (rest : List Char), c.isDigit = true →
      Communicator.sockNotify (String.mk ('^' :: 'X' :: c :: rest)) d
        = some (Communicator.dset d ((c.toNat : ℤ) - 48) false)) ∧
    (∀ (d : Communicator.RunDict) (l : String),
      l.data ≠ [] → l.data.take 2 ≠ ['^', 'U'] → l.data.take 2 ≠ ['^', 'X'] →
      Communicator.sockNotify l d = some d) ∧
    (∀ d : Communicator.RunDict, Communicator.sockNotify ("^U") d = none) ∧
    (∀ (line : Bytes) (d : Communicator.RunDict), Communicator.serialNotify line d = d) := by
  refine ⟨?_, ?_, ?_, fun d => rfl, ?_⟩
  · intro d c rest h
    simp [Communicator.sockNotify, Communicator.pyIntChar, h]
  · intro d c rest h
    simp [Communicator.sockNotify, Communicator.pyIntChar, h]
  · intro d l h1 h2 h3
    simp [Communicator.sockNotify, h1, h2, h3]
  · intro line d
    simp [Communicator.serialNotify, Communicator.pyEqBytesStr]

/-- Claim C3, witness: the amended theorem applied to the concrete inputs
`"^U3\r\n"` (on an empty table) and the unrecognized `"zz\r\n"`. -/
theorem C3_notify_witness :
    Communicator.sockNotify (String.mk ['^', 'U', '3', '\r', '\n']) [] = some [(3, true)] ∧
    Communicator.sockNotify ("zz\r\n") [(1, true)] = some [(1, true)] := by
  constructor
  · have h := C3_notify_amended.1 [] '3' ['\r', '\n'] (by decide)
    exact h.trans (by decide)
  · exact C3_notify_amended.2.2.1 [(1, true)] ("zz\r\n") (by decide) (by decide) (by decide)

/-- Claim C4, counterexample: the claim requires `encode(25.0) == "2501"`, a
4-character code; `Pump._volume2` actually returns the 6-character
`"2500+1"` (the slice arithmetic keeps four mantissa digits and the
exponent sign). -/
theorem C4_volume2_counterexample :
    Pump._volume2 (.float ⟨250, 1⟩) = "2500+1" ∧
    (Pump._volume2 (.float ⟨250, 1⟩)).length = 6 ∧
    ("2500+1" : String) ≠ "2501" := by decide

/-- Claim C4, amended: `Pump._volume2` is a pure function producing a
6-character code - the first mantissa digit, the next three mantissa digits,
the exponent sign, and the exponent magnitude digit - with test vectors
`encode(25.0) == "2500+1"` and `encode(1.0) == "1000+0"`. -/
theorem C4_volume2_amended :
    Pump._volume2 (.float ⟨250, 1⟩) = "2500+1" ∧
    Pump._volume2 (.float ⟨1, 0⟩) = "1000+0" ∧
    (Pump._volume2 (.float ⟨250, 1⟩)).length = 6 ∧
    (Pump._volume2 (.float ⟨1, 0⟩)).length = 6 := by decide

/-- Claim C5, counterexample: the claim says a lone `"*"` reply terminates
the socket line read without waiting for the timeout.  With a poll stream
whose first poll yields `"*"` and later polls yield more bytes, the read
keeps accumulating past the `"*"` until the time budget runs out - the code
has no `"*"` check. -/
theorem C5_readline_counterexample :
    SocketCommunicator.readline (fun i => if i = 0 then "*" else if i = 1 then "ab" else "") 3
      = (['*', 'a', 'b'], 4) ∧
    (['*', 'a', 'b'] : List Char) ≠ ['*'] := by decide

/-- Claim C5, amended: a socket line read terminates on exactly two events -
the accumulated buffer ends with CR-LF, or the overall time budget expires -
and a reply of the single byte `"*"` is returned only after the whole budget
has been consumed. -/
theorem C5_readline_amended :
    (∀ (polls : ℕ → String) (budget : ℕ),
      SocketCommunicator.endsCRLF (SocketCommunicator.readline polls budget).1 = true ∨
      (SocketCommunicator.readline polls budget).2 = budget + 1) ∧
    (∀ budget : ℕ, SocketCommunicator.readline starPolls budget = (['*'], budget + 1)) := by
  constructor
  · intro polls budget
    have h := readlineGo_ends_or_budget polls budget 0 []
    unfold SocketCommunicator.readline
    rcases h with hl | hr
    · exact Or.inl hl
    · right; rw [hr]; omega
  · exact readline_star

/-- Claim C6, counterexample: the claim says every numeric encoder operates
on the absolute value of its input.  `Pump._discrete2` and `Pump._time2` do
not: `_discrete2(3.17)` is `"0317"` while `_discrete2(-3.17)` is `"-317"`,
and `_time2(1, "s")` is `"00000010"` while `_time2(-1, "s")` is
`"-0000010"`. -/
theorem C6_abs_counterexample :
    Pump._discrete2 (.float ⟨317, 2⟩) = some ("0317") ∧
    Pump._discrete2 (pyNeg (.float ⟨317, 2⟩)) = some ("-317") ∧
    Pump._discrete2 (.float ⟨317, 2⟩) ≠ Pump._discrete2 (pyNeg (.float ⟨317, 2⟩)) ∧
    Pump._time2 (.int 1) ("s") = "00000010" ∧
    Pump._time2 (pyNeg (.int 1)) ("s") = "-0000010" := by decide

/-- Claim C6, amended: only the volume encoders operate on the absolute
value of the input (`_volume1` and `_volume2` are invariant under negation);
the discrete type 2 and time encoders process the signed value, and the time
encoders clamp only on the high side: any number whose converted
tenths-of-a-second value exceeds 35964000 encodes as `"35964000"`. -/
theorem C6_abs_amended :
    (∀ x : PyNum, Pump._volume2 (pyNeg x) = Pump._volume2 x) ∧
    (∀ x : PyNum, Pump._volume1 (pyNeg x) = Pump._volume1 x) ∧
    Pump._time1 (pyNeg (.int 1)) ("s") = "-10" ∧
    (∀ (n : PyNum) (u : String),
      pyLt (.int 35964000) (Pump.timeNumber n u) → Pump._time2 n u = "35964000") := by
  refine ⟨?_, ?_, by decide, ?_⟩
  · intro x
    cases x with
    | int z => simp [Pump._volume2, pyNeg, PyNum.manexp]
    | float d => simp [Pump._volume2, pyNeg, PyNum.manexp]
  · intro x
    cases x with
    | int z => simp [Pump._volume1, pyNeg, PyNum.manexp]
    | float d => simp [Pump._volume1, pyNeg, PyNum.manexp]
  · intro n u h
    unfold Pump._time2
    rw [show pyMin (Pump.timeNumber n u) (.int 35964000) = PyNum.int 35964000 from by
      unfold pyMin; exact if_pos h]
    decide

/-- Claim C6, witness: the amended theorem applied at `-25.0` for the volume
encoder and at `10000000` minutes (whose tenths value 6000000000 exceeds the
maximum) for the time clamp. -/
theorem C6_abs_witness :
    Pump._volume2 (pyNeg (.float ⟨250, 1⟩)) = Pump._volume2 (.float ⟨250, 1⟩) ∧
    pyLt (.int 35964000) (Pump.timeNumber (.int 10000000) ("m")) ∧
    Pump._time2 (.int 10000000) ("m") = "35964000" :=
  ⟨C6_abs_amended.1 (.float ⟨250, 1⟩), by decide,
    C6_abs_amended.2.2.2 (.int 10000000) ("m") (by decide)⟩

/-- Claim C7: `Pump._time2` evaluated at the inputs of the claim.  The minute
vector holds (`_time2(1, "m") = "00000600"`) and values above the maximum
clamp to `"35964000"`, but the hour branch multiplies by 60 only - one hour
becomes 600 tenths (one minute) instead of 36000, contradicting the
0-999 hr range of the docstring - and a float duration has its decimal point
deleted after formatting: `_time2(1.0, "m") = "00006000"`, not
`"00000600"`. -/
theorem C7_time2_eval :
    Pump._time2 (.int 1) ("m") = "00000600" ∧
    Pump._time2 (.int 1) ("h") = "00000600" ∧
    Pump._time2 (.float ⟨1, 0⟩) ("m") = "00006000" ∧
    Pump._time2 (.int 10000000) ("m") = "35964000" := by decide

/-- Claim C8, counterexample: the claim describes the encoder for decimal
values generally, but at 0.0 the code-side both-ends `strip("0")` reduces
`"0.0"` to `"."`, so `int("")` raises a `ValueError`, while the claimed
transform (strip trailing zeros, concatenate, zero-pad) yields `"0000"`. -/
theorem C8_discrete2_counterexample :
    Pump._discrete2 (.float ⟨0, 0⟩) = none ∧
    Pump.discrete2SpecStrip (.float ⟨0, 0⟩) = some ("0000") ∧
    Pump._discrete2 (.float ⟨0, 0⟩) ≠ Pump.discrete2SpecStrip (.float ⟨0, 0⟩) := by decide

/-- Claim C8, amended: for every number whose decimal string contains a
nonzero digit - that is, every value except zero - `Pump._discrete2` agrees
with the description in the spec (strip the trailing zeros, concatenate the
whole and fractional digit groups, zero-pad left to 4), and the vectors
`encode(3.17) == "0317"` and `encode(0.5) == "0005"` hold; at zero the code
raises instead of returning `"0000"`. -/
theorem C8_discrete2_amended :
    (∀ n : PyNum, (∃ c ∈ (pyStr n).data, c.isDigit = true ∧ ¬(c = '0')) →
      Pump._discrete2 n = Pump.discrete2SpecStrip n) ∧
    Pump._discrete2 (.float ⟨317, 2⟩) = some ("0317") ∧
    Pump._discrete2 (.float ⟨5, 1⟩) = some ("0005") := by
  refine ⟨?_, by decide, by decide⟩
  intro n hex
  obtain ⟨c, hcm, hcd, hc0⟩ := hex
  rcases hh : (pyStr n).data.head? with _ | c0
  · rw [List.head?_eq_none_iff] at hh
    rw [hh] at hcm
    exact absurd hcm (List.not_mem_nil c)
  · by_cases hz : c0 = '0'
    · subst hz
      cases n with
      | int z =>
        have hdata : (pyStr (.int z)).data
            = (if z < 0 then ['-'] else []) ++ natDigitsStr z.natAbs := rfl
        by_cases hneg : z < 0
        · rw [hdata, if_pos hneg] at hh
          simp only [List.singleton_append, List.head?_cons] at hh
          exact absurd (Option.some.inj hh) (by decide)
        · rw [hdata, if_neg hneg, List.nil_append] at hh
          have hz0 : z.natAbs = 0 := natDigitsStr_head_zero _ hh
          have hl : (pyStr (.int z)).data = ['0'] := by
            rw [hdata, if_neg hneg, List.nil_append, hz0, natDigitsStr_zero]
          rw [hl, List.mem_singleton] at hcm
          exact absurd hcm hc0
      | float d =>
        have hdata : (pyStr (.float d)).data = floatStrL d := rfl
        unfold floatStrL at hdata
        by_cases hneg : d.man < 0
        · rw [if_pos hneg] at hdata
          rw [hdata] at hh
          simp only [List.cons_append, List.head?_cons] at hh
          exact absurd (Option.some.inj hh) (by decide)
        · rw [if_neg hneg, List.nil_append] at hdata
          rw [hdata] at hh
          rw [head?_append_left _ _ (natDigitsStr_ne_nil _)] at hh
          have hz0 : d.man.natAbs / 10 ^ d.exp = 0 := natDigitsStr_head_zero _ hh
          rw [hz0, natDigitsStr_zero] at hdata
          have hfr : (pyStr (.float d)).data
              = '0' :: '.' :: fracPart (d.man.natAbs % 10 ^ d.exp) d.exp := hdata
          have hcf : c ∈ fracPart (d.man.natAbs % 10 ^ d.exp) d.exp := by
            rw [hfr] at hcm
            rcases List.mem_cons.mp hcm with he | hcm2
            · exact absurd he hc0
            · rcases List.mem_cons.mp hcm2 with he | hcm3
              · subst he; exact absurd hcd (by decide)
              · exact hcm3
          unfold Pump._discrete2 Pump.discrete2SpecStrip
          rw [hfr]
          exact discrete2Core_strip_agree_zero _ (fracPart_digits _ _) ⟨c, hcf, hc0⟩
    · unfold Pump._discrete2 Pump.discrete2SpecStrip pyStrip0
      have hp : ∀ ch, (pyStr n).data.head? = some ch →
          (fun ch => decide (ch = '0')) ch = false := by
        intro ch hch
        rw [hh] at hch
        have he : c0 = ch := Option.some.inj hch
        subst he
        exact decide_eq_false hz
      rw [dropWhile_eq_self_of_head _ _ hp]

/-- Claim C8, witness: the agreement theorem applied at 0.5, a value below
one whose decimal string `"0.5"` begins with a zero but contains the nonzero
digit 5. -/
theorem C8_discrete2_witness :
    (∃ c ∈ (pyStr (.float ⟨5, 1⟩)).data, c.isDigit = true ∧ ¬(c = '0')) ∧
    Pump._discrete2 (.float ⟨5, 1⟩) = Pump.discrete2SpecStrip (.float ⟨5, 1⟩) ∧
    Pump.discrete2SpecStrip (.float ⟨5, 1⟩) = some ("0005") :=
  ⟨by decide, C8_discrete2_amended.1 (.float ⟨5, 1⟩) (by decide), by decide⟩

/-- Claim C9: `setRunningStatus(status, 0)` overwrites every channel
currently present in the table with `status` and touches no other key, and
`setRunningStatus(status, list)` overwrites exactly the listed channels. -/
theorem C9_setRunningStatus :
    (∀ (st : Bool) (d : Communicator.RunDict) (c : ℤ),
      c ∈ d.map (fun p => p.1) →
      Communicator.dget? (Communicator.setRunningStatus st (.one 0) d) c = some st) ∧
    (∀ (st : Bool) (d : Communicator.RunDict) (c : ℤ),
      c ∉ d.map (fun p => p.1) →
      Communicator.dget? (Communicator.setRunningStatus st (.one 0) d) c
        = Communicator.dget? d c) ∧
    (∀ (st : Bool) (cs : List ℤ) (d : Communicator.RunDict) (c : ℤ),
      Communicator.dget? (Communicator.setRunningStatus st (.many cs) d) c
        = if c ∈ cs then some st else Communicator.dget? d c) := by
  have hall : ∀ (st : Bool) (d : Communicator.RunDict),
      Communicator.setRunningStatus st (.one 0) d
        = (d.map (fun p => p.1)).foldl (fun a k => Communicator.dset a k st) d := by
    intro st d
    simp [Communicator.setRunningStatus]
  refine ⟨?_, ?_, ?_⟩
  · intro st d c hm
    rw [hall, dget_foldl_dset, if_pos hm]
  · intro st d c hm
    rw [hall, dget_foldl_dset, if_neg hm]
  · intro st cs d c
    exact dget_foldl_dset cs st d c

/-- Claim C9, witness: the theorem applied to the table
`{1: False, 2: True}` - the broadcast `0` sets channel 1 to true and leaves
the absent channel 5 absent, and the list `[2, 7]` sets exactly channels 2
and 7. -/
theorem C9_setRunningStatus_witness :
    Communicator.dget? (Communicator.setRunningStatus true (.one 0) [(1, false), (2, true)]) 1
      = some true ∧
    Communicator.dget? (Communicator.setRunningStatus true (.one 0) [(1, false), (2, true)]) 5
      = none ∧
    Communicator.dget? (Communicator.setRunningStatus false (.many [2, 7]) [(1, false), (2, true)]) 7
      = some false := by
  refine ⟨C9_setRunningStatus.1 true [(1, false), (2, true)] 1 (by decide), ?_, ?_⟩
  · have h := C9_setRunningStatus.2.1 true [(1, false), (2, true)] 5 (by decide)
    exact h.trans (by decide)
  · have h := C9_setRunningStatus.2.2 false [2, 7] [(1, false), (2, true)] 7
    exact h.trans (by decide)

/-- Claim C10: `Pump._discrete2` is not total - for every number whose
decimal string contains no `.` (every `int`, such as the 3 passed through
`setTubingInnerDiameter(3)`), the two-way unpacking of `s.split(".")` fails
and the call raises instead of returning a code. -/
theorem C10_discrete2_partial :
    (∀ n : PyNum, '.' ∉ (pyStr n).data → Pump._discrete2 n = none) ∧
    Pump._discrete2 (.int 3) = none ∧
    (∀ ch : ℤ, Pump.setTubingInnerDiameterCmd (.int 3) ch = none) := by
  refine ⟨?_, by decide, ?_⟩
  · intro n h
    unfold Pump._discrete2 Pump.discrete2Core
    rw [splitDotL_of_not_mem _ (not_mem_pyStrip0 h)]
    rfl
  · intro ch
    unfold Pump.setTubingInnerDiameterCmd
    rw [show Pump._discrete2 (.int 3) = none from by decide]
    rfl

/-- Claim C10, witness: the theorem applied at the integer 3, whose decimal
string `"3"` contains no dot. -/
theorem C10_discrete2_partial_witness :
    ('.' ∉ (pyStr (.int 3)).data) ∧ Pump._discrete2 (.int 3) = none :=
  ⟨by decide, C10_discrete2_partial.1 (.int 3) (by decide)⟩
